import Mathlib

/-!
Shallow embedding of the midder event emitter (src/model.ts, src/operation.ts).

Event names and listener ids are strings, as in the source.  Payloads are a
type parameter `α`.  Handlers supplied by client code are modelled as pure
functions whose `none` result models the handler throwing; listener callbacks
are modelled by a reference identity (a `Nat`, standing for JS reference
equality of function objects) together with a `raises` predicate saying on
which inputs the callback throws.  Timestamps are integers (`Date.now()`
values).  JS `Map`s keyed by event name are association lists with
`Map.set`-style in-place replacement.
-/

abbrev EventName := String

/-- Association-list lookup, modelling `Map.get`. -/
def mapLookup {β : Type} : List (EventName × β) → EventName → Option β
  | [], _ => none
  | (k, v) :: rest, key => if key = k then some v else mapLookup rest key

/-- Association-list update, modelling `Map.set`: replace in place if the key
is present (a JS `Map` holds each key at most once), append otherwise. -/
def mapSet {β : Type} : List (EventName × β) → EventName → β → List (EventName × β)
  | [], k, v => [(k, v)]
  | (k', v') :: rest, k, v =>
    if k' = k then (k, v) :: rest else (k', v') :: mapSet rest k v

/-- Association-list deletion, modelling `Map.delete`. -/
def mapDel {β : Type} : List (EventName × β) → EventName → List (EventName × β)
  | [], _ => []
  | (k', v') :: rest, k =>
    if k' = k then mapDel rest k else (k', v') :: mapDel rest k

theorem mapLookup_set_self {β : Type} (m : List (EventName × β)) (k : EventName) (v : β) :
    mapLookup (mapSet m k v) k = some v := by
  induction m with
  | nil => simp [mapSet, mapLookup]
  | cons p rest ih =>
    by_cases hk : p.1 = k
    · simp [mapSet, hk, mapLookup]
    · have hk' : ¬ k = p.1 := fun hc => hk hc.symm
      simpa [mapSet, hk, mapLookup, hk'] using ih

theorem mapLookup_set_other {β : Type} (m : List (EventName × β)) (k q : EventName) (v : β)
    (h : q ≠ k) : mapLookup (mapSet m k v) q = mapLookup m q := by
  induction m with
  | nil => simp [mapSet, mapLookup, h]
  | cons p rest ih =>
    by_cases hk : p.1 = k
    · simp [mapSet, hk, mapLookup, h, hk ▸ h]
    · by_cases hq : q = p.1
      · simp [mapSet, hk, mapLookup, hq]
      · simpa [mapSet, hk, mapLookup, hq] using ih

theorem mapLookup_del_self {β : Type} (m : List (EventName × β)) (k : EventName) :
    mapLookup (mapDel m k) k = none := by
  induction m with
  | nil => simp [mapDel, mapLookup]
  | cons p rest ih =>
    by_cases hk : p.1 = k
    · simpa [mapDel, hk] using ih
    · have hk' : ¬ k = p.1 := fun hc => hk hc.symm
      simpa [mapDel, hk, mapLookup, hk'] using ih

theorem mapLookup_del_other {β : Type} (m : List (EventName × β)) (k q : EventName)
    (h : q ≠ k) : mapLookup (mapDel m k) q = mapLookup m q := by
  induction m with
  | nil => simp [mapDel, mapLookup]
  | cons p rest ih =>
    by_cases hk : p.1 = k
    · have hq : ¬ q = p.1 := fun hc => h (hc.trans hk)
      simpa [mapDel, hk, mapLookup, hq, h] using ih
    · by_cases hq : q = p.1
      · simp [mapDel, hk, mapLookup, hq]
      · simpa [mapDel, hk, mapLookup, hq] using ih

/-- Operation step (src/operation.ts `OperationStep`): a tagged handler.  A
`none` result of a transform or filter handler models the handler throwing; a
result of a tap handler (and whether it throws) never influences the running
value, so its handler is modelled by `α → Option Unit` with `none` for a
throw. -/
inductive OperationStep (α : Type) where
  | transform (h : α → Option α)
  | filter (h : α → Option Bool)
  | tap (h : α → Option Unit)

/-- Operation chain: the list of steps held by `OperationChain` in
src/operation.ts. -/
abbrev OperationChain (α : Type) := List (OperationStep α)

/-- Embedding of `OperationChain.execute` (src/operation.ts lines 41-68),
instrumented with the number of step handlers that were invoked during the
evaluation (execution is strictly front-to-back, so the handlers that ran are
exactly the first `count` steps).  The first component is the result:
`none` models `undefined` in the source, i.e. a SUPPRESSED evaluation.
Error policy, exactly as in the source `catch` block: a throwing transform
returns `undefined`; a throwing filter or tap lets execution continue with
the running value unchanged; a filter returning `false` returns
`undefined`. -/
def execTrace {α : Type} : OperationChain α → α → Option α × Nat
  | [], a => (some a, 0)
  | step :: rest, a =>
    match step with
    | OperationStep.transform h =>
      match h a with
      | some b =>
        let r := execTrace rest b
        (r.1, r.2 + 1)
      | none => (none, 1)
    | OperationStep.filter h =>
      match h a with
      | some false => (none, 1)
      | some true =>
        let r := execTrace rest a
        (r.1, r.2 + 1)
      | none =>
        let r := execTrace rest a
        (r.1, r.2 + 1)
    | OperationStep.tap _ =>
      let r := execTrace rest a
      (r.1, r.2 + 1)

/-- The result of `OperationChain.execute`, without the instrumentation. -/
def OperationChain.execute {α : Type} (c : OperationChain α) (a : α) : Option α :=
  (execTrace c a).1

theorem execTrace_count_of_some {α : Type} (c : OperationChain α) :
    ∀ (a b : α), (execTrace c a).1 = some b → (execTrace c a).2 = c.length := by
  induction c with
  | nil => intro a b h; simp [execTrace]
  | cons step rest ih =>
    intro a b h
    cases step with
    | transform f =>
      cases hf : f a with
      | some v =>
        have h' : (execTrace rest v).1 = some b := by
          simpa [execTrace, hf] using h
        simp [execTrace, hf, ih v b h']
      | none => simp [execTrace, hf] at h
    | filter f =>
      cases hf : f a with
      | some bv =>
        cases bv with
        | false => simp [execTrace, hf] at h
        | true =>
          have h' : (execTrace rest a).1 = some b := by
            simpa [execTrace, hf] using h
          simp [execTrace, hf, ih a b h']
      | none =>
        have h' : (execTrace rest a).1 = some b := by
          simpa [execTrace, hf] using h
        simp [execTrace, hf, ih a b h']
    | tap f =>
      have h' : (execTrace rest a).1 = some b := by
        simpa [execTrace] using h
      simp [execTrace, ih a b h']

theorem execTrace_append {α : Type} (pre rest : OperationChain α) :
    ∀ (a b : α), (execTrace pre a).1 = some b →
      execTrace (pre ++ rest) a =
        ((execTrace rest b).1, (execTrace pre a).2 + (execTrace rest b).2) := by
  induction pre with
  | nil =>
    intro a b h
    have hb : a = b := by simpa [execTrace] using h
    subst hb
    simp [execTrace]
  | cons step pre ih =>
    intro a b h
    cases step with
    | transform f =>
      cases hf : f a with
      | some v =>
        have h' : (execTrace pre v).1 = some b := by
          simpa [execTrace, hf] using h
        have := ih v b h'
        simp [execTrace, hf, this]
        omega
      | none => simp [execTrace, hf] at h
    | filter f =>
      cases hf : f a with
      | some bv =>
        cases bv with
        | false => simp [execTrace, hf] at h
        | true =>
          have h' : (execTrace pre a).1 = some b := by
            simpa [execTrace, hf] using h
          have := ih a b h'
          simp [execTrace, hf, this]
          omega
      | none =>
        have h' : (execTrace pre a).1 = some b := by
          simpa [execTrace, hf] using h
        have := ih a b h'
        simp [execTrace, hf, this]
        omega
    | tap f =>
      have h' : (execTrace pre a).1 = some b := by
        simpa [execTrace] using h
      have := ih a b h'
      simp [execTrace, this]
      omega

/-- Listener record (src/model.ts `ListenerWithId`): the id string, the
reference identity of the callback (JS functions compare by reference; `handler`
is that reference), and `raises`, telling on which inputs the callback
throws when invoked. -/
structure ListenerWithId (β : Type) where
  id : String
  handler : Nat
  raises : β → Bool

/-- One observable listener invocation performed during delivery: either a
per-name listener called with the processed payload, or a wildcard listener
called with the envelope `{type, data}` (src/model.ts line 222). -/
inductive Invocation (α : Type) where
  | perName (id : String) (payload : α)
  | wildcard (id : String) (etype : EventName) (data : α)
  deriving DecidableEq

/-- State of one `EventEmitter` instance (src/model.ts lines 12-20).
`debounceTimers` stores, per event name, the pending deferred emission as the
pair (absolute fire time, captured payload) — the model of the live
`setTimeout` handle plus the `data` captured by its callback.
`throttleTimers` stores the last-fire timestamp. -/
structure EventEmitter (α : Type) where
  maxListeners : Int
  listeners : List (EventName × List (ListenerWithId α))
  wildcardListeners : List (ListenerWithId (EventName × α))
  operationChains : List (EventName × OperationChain α)
  debounceTimers : List (EventName × (Int × α))
  debounceDelays : List (EventName × Int)
  throttleTimers : List (EventName × Int)
  throttleDelays : List (EventName × Int)
  idCounter : Nat

/-- Result of an internal delivery (`_emitInternal` / `emitToListener`):
the returned boolean, the listener invocations performed, and the total
number of chain-step handlers that ran across all chain evaluations. -/
structure InternalResult (α : Type) where
  called : Bool
  invs : List (Invocation α)
  stepsRun : Nat

/-- Result of a public `emit` call: returned boolean, successor state,
invocations performed synchronously, and chain steps run synchronously. -/
structure EmitResult (α : Type) where
  ret : Bool
  state : EventEmitter α
  invs : List (Invocation α)
  stepsRun : Nat

/-- Embedding of the `EventEmitter` constructor (src/model.ts lines 22-27).
`config` is the `maxListeners` option: `none` models the key being absent.
The guard `config.maxListeners && config.maxListeners < 0` throws exactly
when the option is present, truthy (nonzero) and negative; the assignment
`config.maxListeners || 10` substitutes 10 for an absent or falsy (zero)
value. -/
def mkEventEmitter (α : Type) (config : Option Int) : Except Unit (EventEmitter α) :=
  let truthy : Bool := match config with
    | some v => v != 0
    | none => false
  if truthy && decide (config.getD 0 < 0) then
    Except.error ()
  else
    Except.ok
      { maxListeners := match config with
          | some v => if v = 0 then 10 else v
          | none => 10
        listeners := []
        wildcardListeners := []
        operationChains := []
        debounceTimers := []
        debounceDelays := []
        throttleTimers := []
        throttleDelays := []
        idCounter := 0 }

/-- Embedding of `getMaxListeners` (src/model.ts line 338). -/
def EventEmitter.getMaxListeners {α : Type} (s : EventEmitter α) : Int :=
  s.maxListeners

/-- Embedding of `setMaxListeners` (src/model.ts lines 342-348): throws on a
negative argument, otherwise updates the advisory cap. -/
def EventEmitter.setMaxListeners {α : Type} (s : EventEmitter α) (n : Int) :
    Except Unit (EventEmitter α) :=
  if n < 0 then Except.error () else Except.ok { s with maxListeners := n }

/-- Embedding of `listenerCount` (src/model.ts lines 264-269). -/
def EventEmitter.listenerCount {α : Type} (s : EventEmitter α) (event : EventName) : Nat :=
  if event = "*" then s.wildcardListeners.length
  else
    match mapLookup s.listeners event with
    | some l => l.length
    | none => 0

/-- Embedding of the non-wildcard branch of `on` (src/model.ts lines 41-81),
without a cancellation signal.  Returns the fresh id, whether the advisory
max-listeners warning was printed, and the successor state. -/
def EventEmitter.onName {α : Type} (s : EventEmitter α) (event : EventName)
    (handler : Nat) (raises : α → Bool) : String × Bool × EventEmitter α :=
  let id := toString s.idCounter
  let s1 : EventEmitter α := { s with idCounter := s.idCounter + 1 }
  let warned : Bool :=
    decide (0 < s1.maxListeners) && decide ((s1.listenerCount event : Int) ≥ s1.maxListeners)
  let existing := (mapLookup s1.listeners event).getD []
  (id, warned,
    { s1 with listeners := mapSet s1.listeners event (existing ++ [⟨id, handler, raises⟩]) })

/-- Embedding of the wildcard branch of `on` (src/model.ts lines 52-55 and
64-70), without a cancellation signal. -/
def EventEmitter.onWildcard {α : Type} (s : EventEmitter α)
    (handler : Nat) (raises : EventName × α → Bool) : String × Bool × EventEmitter α :=
  let id := toString s.idCounter
  let s1 : EventEmitter α := { s with idCounter := s.idCounter + 1 }
  let warned : Bool :=
    decide (0 < s1.maxListeners) && decide ((s1.wildcardListeners.length : Int) ≥ s1.maxListeners)
  (id, warned,
    { s1 with wildcardListeners := s1.wildcardListeners ++ [⟨id, handler, raises⟩] })

/-- Argument of `off`: a listener id string or a callback reference. -/
inductive IdOrHandler where
  | byId (i : String)
  | byHandler (h : Nat)

/-- Embedding of `off` (src/model.ts lines 124-151): returns whether anything
was removed, and the successor state. -/
def EventEmitter.off {α : Type} (s : EventEmitter α) (event : EventName)
    (x : IdOrHandler) : Bool × EventEmitter α :=
  if event = "*" then
    let before := s.wildcardListeners.length
    let wl := match x with
      | IdOrHandler.byId i => s.wildcardListeners.filter (fun l => l.id ≠ i)
      | IdOrHandler.byHandler h => s.wildcardListeners.filter (fun l => l.handler ≠ h)
    (decide (wl.length ≠ before), { s with wildcardListeners := wl })
  else
    match mapLookup s.listeners event with
    | none => (false, s)
    | some l =>
      let filtered := match x with
        | IdOrHandler.byId i => l.filter (fun w => w.id ≠ i)
        | IdOrHandler.byHandler h => l.filter (fun w => w.handler ≠ h)
      if filtered.length = l.length then (false, s)
      else (true, { s with listeners := mapSet s.listeners event filtered })

/-- One evaluation of the chain bound to `event` (src/model.ts
`chain ? chain.execute(data) : data`), with the step-handler count. -/
def EventEmitter.chainExec {α : Type} (s : EventEmitter α) (event : EventName) (data : α) :
    Option α × Nat :=
  match mapLookup s.operationChains event with
  | some steps => execTrace steps data
  | none => (some data, 0)

/-- The wildcard fan-out loop of `_emitInternal` (src/model.ts lines
218-228): for each wildcard listener the chain is re-evaluated; on a
non-suppressed evaluation the listener is invoked with the envelope, and
`called` becomes true only when that invocation did not throw (the
`called = true` statement sits after the handler call inside the `try`). -/
def wildcardLoop {α : Type} (s : EventEmitter α) (event : EventName) (data : α) :
    List (ListenerWithId (EventName × α)) → Bool → InternalResult α
  | [], called => ⟨called, [], 0⟩
  | w :: rest, called =>
    let c := s.chainExec event data
    match c.1 with
    | some v =>
      let rr := wildcardLoop s event data rest
        (if w.raises (event, v) then called else true)
      ⟨rr.called, Invocation.wildcard w.id event v :: rr.invs, c.2 + rr.stepsRun⟩
    | none =>
      let rr := wildcardLoop s event data rest called
      ⟨rr.called, rr.invs, c.2 + rr.stepsRun⟩

/-- Embedding of `_emitInternal` (src/model.ts lines 192-231).  Note the
early `return false` on line 204: when per-name listeners exist and the
chain evaluation is suppressed, the wildcard loop is never reached. -/
def EventEmitter.emitInternal {α : Type} (s : EventEmitter α) (event : EventName)
    (data : α) : InternalResult α :=
  match mapLookup s.listeners event with
  | none =>
    if s.wildcardListeners.isEmpty then ⟨false, [], 0⟩
    else wildcardLoop s event data s.wildcardListeners false
  | some l =>
    match l with
    | [] => wildcardLoop s event data s.wildcardListeners false
    | _ :: _ =>
      let c := s.chainExec event data
      match c.1 with
      | none => ⟨false, [], c.2⟩
      | some v =>
        let rr := wildcardLoop s event data s.wildcardListeners true
        ⟨rr.called, l.map (fun w => Invocation.perName w.id v) ++ rr.invs,
          c.2 + rr.stepsRun⟩

/-- The throttle gate condition of `emit` (src/model.ts lines 165-170): the
call is dropped when a truthy throttle delay is configured, a truthy
last-fire time is recorded, and strictly less than the delay has elapsed. -/
def EventEmitter.throttleDrops {α : Type} (s : EventEmitter α) (now : Int)
    (event : EventName) : Bool :=
  match mapLookup s.throttleDelays event with
  | some d =>
    d != 0 &&
      (match mapLookup s.throttleTimers event with
       | some t => t != 0 && decide (now - t < d)
       | none => false)
  | none => false

/-- The debounce branch and immediate delivery of `emit` (src/model.ts lines
174-189), applied after the throttle gate: with a truthy debounce delay the
pending timer for the event is replaced by one firing at `now + delay` with
the current payload, and `emit` returns true at once; otherwise
`_emitInternal` runs synchronously. -/
def EventEmitter.debounceStage {α : Type} (s : EventEmitter α) (now : Int)
    (event : EventName) (data : α) : EmitResult α :=
  match mapLookup s.debounceDelays event with
  | some d =>
    if d ≠ 0 then
      ⟨true, { s with debounceTimers := mapSet s.debounceTimers event (now + d, data) },
        [], 0⟩
    else
      let r := s.emitInternal event data
      ⟨r.called, s, r.invs, r.stepsRun⟩
  | none =>
    let r := s.emitInternal event data
    ⟨r.called, s, r.invs, r.stepsRun⟩

/-- The state update of the non-dropping throttle path (src/model.ts line
171): with a truthy throttle delay configured, the current time is recorded
as the new last-fire time of the event; otherwise the state is untouched. -/
def EventEmitter.throttleRecord {α : Type} (s : EventEmitter α) (now : Int)
    (event : EventName) : EventEmitter α :=
  match mapLookup s.throttleDelays event with
  | some d =>
    if d ≠ 0 then { s with throttleTimers := mapSet s.throttleTimers event now }
    else s
  | none => s

/-- Embedding of `emit` (src/model.ts lines 161-190), with the current time
passed explicitly (`Date.now()` in the source): the throttle gate either
drops the call outright or records the fire time and falls through to the
debounce/delivery stage. -/
def EventEmitter.emit {α : Type} (s : EventEmitter α) (now : Int) (event : EventName)
    (data : α) : EmitResult α :=
  if s.throttleDrops now event then ⟨false, s, [], 0⟩
  else (s.throttleRecord now event).debounceStage now event data

/-- Firing of a pending debounce timer (the `setTimeout` callback installed
by `emit`, src/model.ts lines 180-183): the pending record is deleted and
`_emitInternal` runs with the captured payload.  With no pending record
nothing happens (a cancelled timer never fires). -/
def EventEmitter.fireDebounce {α : Type} (s : EventEmitter α) (event : EventName) :
    EmitResult α :=
  match mapLookup s.debounceTimers event with
  | some td =>
    let s1 : EventEmitter α := { s with debounceTimers := mapDel s.debounceTimers event }
    let r := s1.emitInternal event td.2
    ⟨r.called, s1, r.invs, r.stepsRun⟩
  | none => ⟨false, s, [], 0⟩

/-- Embedding of `emitToListener` (src/model.ts lines 237-262): finds the
per-name listener with the given id, evaluates the chain once, and invokes
only that listener; returns false when the listener is absent, the chain is
suppressed, or the handler throws.  The definition reads neither timing
map, which is what the source means by "not gated by debounce/throttle". -/
def EventEmitter.emitToListener {α : Type} (s : EventEmitter α) (event : EventName)
    (data : α) (listenerId : String) : InternalResult α :=
  match mapLookup s.listeners event with
  | none => ⟨false, [], 0⟩
  | some l =>
    match l.find? (fun w => w.id = listenerId) with
    | none => ⟨false, [], 0⟩
    | some target =>
      let c := s.chainExec event data
      match c.1 with
      | none => ⟨false, [], c.2⟩
      | some v =>
        ⟨!target.raises v, [Invocation.perName target.id v], c.2⟩

/-- Embedding of `removeAllListeners` (src/model.ts lines 271-289).  The
source guard is `if (event)`, so a present but empty-string name is falsy
and takes the clear-everything branch. -/
def EventEmitter.removeAllListeners {α : Type} (s : EventEmitter α)
    (event : Option EventName) : EventEmitter α :=
  let truthy : Bool := match event with
    | some e => e != ""
    | none => false
  if truthy then
    let e := event.getD ""
    { s with listeners := mapDel s.listeners e
             debounceTimers := mapDel s.debounceTimers e
             throttleTimers := mapDel s.throttleTimers e }
  else
    { s with listeners := []
             wildcardListeners := []
             debounceTimers := []
             throttleTimers := [] }

theorem wildcardLoop_suppressed {α : Type} (s : EventEmitter α) (event : EventName)
    (data : α) (hc : (s.chainExec event data).1 = none) :
    ∀ (ws : List (ListenerWithId (EventName × α))) (called : Bool),
      (wildcardLoop s event data ws called).called = called ∧
      (wildcardLoop s event data ws called).invs = [] := by
  intro ws
  induction ws with
  | nil => intro called; simp [wildcardLoop]
  | cons w rest ih =>
    intro called
    simpa [wildcardLoop, hc] using ih called

theorem emitInternal_suppressed {α : Type} (s : EventEmitter α) (event : EventName)
    (data : α) (hc : (s.chainExec event data).1 = none) :
    (s.emitInternal event data).called = false ∧
    (s.emitInternal event data).invs = [] := by
  unfold EventEmitter.emitInternal
  cases hl : mapLookup s.listeners event with
  | none =>
    by_cases hw : s.wildcardListeners.isEmpty
    · simp [hw]
    · simpa [hw] using wildcardLoop_suppressed s event data hc s.wildcardListeners false
  | some l =>
    cases l with
    | nil => exact wildcardLoop_suppressed s event data hc s.wildcardListeners false
    | cons w rest => simp [hc]

/-- C4: in `OperationChain.execute`, a throwing transform handler suppresses
the evaluation (`undefined` result) and stops it — the step count of the
whole run is `pre.length + 1`, and since execution is strictly
front-to-back, the handlers that ran are exactly the `pre` steps and the
failing transform, none later; a throwing filter behaves exactly as a filter
that returned `true`, and a tap handler (including a throwing one) never
influences the evaluation; `execute` is a total function, so no handler
error ever propagates to its caller. -/
theorem chain_step_failure_policy {α : Type} (pre post : OperationChain α) (a b : α)
    (hpre : (execTrace pre a).1 = some b) :
    (∀ h : α → Option α, h b = none →
      execTrace (pre ++ OperationStep.transform h :: post) a = (none, pre.length + 1)) ∧
    (∀ h : α → Option Bool, h b = none →
      execTrace (pre ++ OperationStep.filter h :: post) a =
        execTrace (pre ++ OperationStep.filter (fun x => some true) :: post) a) ∧
    (∀ h h' : α → Option Unit,
      execTrace (pre ++ OperationStep.tap h :: post) a =
        execTrace (pre ++ OperationStep.tap h' :: post) a) := by
  have hcount : (execTrace pre a).2 = pre.length := execTrace_count_of_some pre a b hpre
  refine ⟨?_, ?_, ?_⟩
  · intro h hh
    have := execTrace_append pre (OperationStep.transform h :: post) a b hpre
    rw [this]
    simp [execTrace, hh, hcount]
  · intro h hh
    have h1 := execTrace_append pre (OperationStep.filter h :: post) a b hpre
    have h2 := execTrace_append pre
      (OperationStep.filter (fun x => some true) :: post) a b hpre
    rw [h1, h2]
    simp [execTrace, hh]
  · intro h h'
    have h1 := execTrace_append pre (OperationStep.tap h :: post) a b hpre
    have h2 := execTrace_append pre (OperationStep.tap h' :: post) a b hpre
    rw [h1, h2]
    simp [execTrace]

theorem chain_step_failure_policy_w :
    (execTrace [OperationStep.tap (fun x => some ())] (0 : Int)).1 = some 0 ∧
    execTrace ([OperationStep.tap (fun x => some ())] ++
        OperationStep.transform (fun x => (none : Option Int)) ::
          [OperationStep.tap (fun x => some ())]) 0 = (none, 2) :=
  ⟨rfl,
    (chain_step_failure_policy [OperationStep.tap (fun x => some ())]
      [OperationStep.tap (fun x => some ())] 0 0 rfl).1 (fun x => none) rfl⟩

/-- C9: a filter step returning `false` at position `pre.length` makes the
whole evaluation SUPPRESSED with exactly `pre.length + 1` handlers run (the
`pre` steps plus the filter itself; execution being front-to-back, no step
after the filter runs), and a suppressed chain evaluation causes
`_emitInternal` to perform no listener invocation at all and to report
`false`. -/
theorem filter_false_suppresses {α : Type} (pre post : OperationChain α)
    (h : α → Option Bool) (a b : α)
    (hpre : (execTrace pre a).1 = some b) (hf : h b = some false) :
    execTrace (pre ++ OperationStep.filter h :: post) a = (none, pre.length + 1) ∧
    (∀ (s : EventEmitter α) (event : EventName) (d : α),
      (s.chainExec event d).1 = none →
      (s.emitInternal event d).called = false ∧ (s.emitInternal event d).invs = []) := by
  constructor
  · have hcount : (execTrace pre a).2 = pre.length := execTrace_count_of_some pre a b hpre
    have := execTrace_append pre (OperationStep.filter h :: post) a b hpre
    rw [this]
    simp [execTrace, hf, hcount]
  · intro s event d hc
    exact emitInternal_suppressed s event d hc

theorem filter_false_suppresses_w :
    (execTrace [OperationStep.transform (fun x => some (x + 1))] (3 : Int)).1 = some 4 ∧
    ((fun x => if x < 5 then some false else some true) (4 : Int) = some false) ∧
    execTrace ([OperationStep.transform (fun x => some (x + 1))] ++
        OperationStep.filter (fun x => if x < 5 then some false else some true) ::
          [OperationStep.tap (fun x => some ())]) 3 = (none, 2) :=
  ⟨by decide, by decide,
    (filter_false_suppresses [OperationStep.transform (fun x => some (x + 1))]
      [OperationStep.tap (fun x => some ())]
      (fun x => if x < 5 then some false else some true) 3 4 (by decide) (by decide)).1⟩

theorem throttleRecord_state {α : Type} (s : EventEmitter α) (now : Int)
    (event : EventName) :
    (s.throttleRecord now event).maxListeners = s.maxListeners ∧
    (s.throttleRecord now event).listeners = s.listeners ∧
    (s.throttleRecord now event).wildcardListeners = s.wildcardListeners ∧
    (s.throttleRecord now event).operationChains = s.operationChains ∧
    (s.throttleRecord now event).debounceTimers = s.debounceTimers ∧
    (s.throttleRecord now event).debounceDelays = s.debounceDelays ∧
    (s.throttleRecord now event).throttleDelays = s.throttleDelays := by
  unfold EventEmitter.throttleRecord
  split
  · split
    · exact ⟨rfl, rfl, rfl, rfl, rfl, rfl, rfl⟩
    · exact ⟨rfl, rfl, rfl, rfl, rfl, rfl, rfl⟩
  · exact ⟨rfl, rfl, rfl, rfl, rfl, rfl, rfl⟩

theorem debounceStage_state {α : Type} (s : EventEmitter α) (now : Int)
    (event : EventName) (data : α) :
    (s.debounceStage now event data).state.maxListeners = s.maxListeners ∧
    (s.debounceStage now event data).state.listeners = s.listeners ∧
    (s.debounceStage now event data).state.wildcardListeners = s.wildcardListeners ∧
    (s.debounceStage now event data).state.operationChains = s.operationChains ∧
    (s.debounceStage now event data).state.debounceDelays = s.debounceDelays ∧
    (s.debounceStage now event data).state.throttleTimers = s.throttleTimers ∧
    (s.debounceStage now event data).state.throttleDelays = s.throttleDelays := by
  unfold EventEmitter.debounceStage
  split
  · split
    · exact ⟨rfl, rfl, rfl, rfl, rfl, rfl, rfl⟩
    · exact ⟨rfl, rfl, rfl, rfl, rfl, rfl, rfl⟩
  · exact ⟨rfl, rfl, rfl, rfl, rfl, rfl, rfl⟩

theorem emit_preserves_config {α : Type} (s : EventEmitter α) (now : Int)
    (event : EventName) (data : α) :
    (s.emit now event data).state.listeners = s.listeners ∧
    (s.emit now event data).state.wildcardListeners = s.wildcardListeners ∧
    (s.emit now event data).state.operationChains = s.operationChains ∧
    (s.emit now event data).state.debounceDelays = s.debounceDelays ∧
    (s.emit now event data).state.throttleDelays = s.throttleDelays := by
  unfold EventEmitter.emit
  split
  · exact ⟨rfl, rfl, rfl, rfl, rfl⟩
  · have h1 := throttleRecord_state s now event
    have h2 := debounceStage_state (s.throttleRecord now event) now event data
    exact ⟨h2.2.1.trans h1.2.1, h2.2.2.1.trans h1.2.2.1,
      h2.2.2.2.1.trans h1.2.2.2.1, h2.2.2.2.2.1.trans h1.2.2.2.2.2.1,
      h2.2.2.2.2.2.2.trans h1.2.2.2.2.2.2⟩

/-- C6: with a positive throttle delay D configured for the event and a
recorded (nonzero) last-fire time t, an `emit` arriving strictly less than D
after t returns false with the whole emitter state unchanged — in
particular the last-fire timestamp is untouched and the debounce
configuration is never consulted for that call — while an `emit` arriving
at or after t + D records `now` as the new last-fire time and continues
through the debounce/delivery stage on that updated state. -/
theorem emit_throttle_gate {α : Type} (s : EventEmitter α) (now : Int)
    (event : EventName) (data : α) (D t : Int)
    (hD : mapLookup s.throttleDelays event = some D) (hDpos : 0 < D)
    (ht : mapLookup s.throttleTimers event = some t) (htnz : t ≠ 0) :
    (now - t < D → s.emit now event data = ⟨false, s, [], 0⟩) ∧
    (D ≤ now - t →
      (s.emit now event data).state.throttleTimers =
        mapSet s.throttleTimers event now ∧
      s.emit now event data =
        EventEmitter.debounceStage
          { s with throttleTimers := mapSet s.throttleTimers event now }
          now event data) := by
  have hDnz : D ≠ 0 := by omega
  constructor
  · intro hlt
    have hdrop : s.throttleDrops now event = true := by
      simp [EventEmitter.throttleDrops, hD, ht, hDnz, htnz, hlt]
    simp [EventEmitter.emit, hdrop]
  · intro hge
    have hdrop : s.throttleDrops now event = false := by
      simp [EventEmitter.throttleDrops, hD, ht, hDnz, htnz]
      omega
    have hrec : s.throttleRecord now event =
        { s with throttleTimers := mapSet s.throttleTimers event now } := by
      simp [EventEmitter.throttleRecord, hD, hDnz]
    have hemit : s.emit now event data =
        EventEmitter.debounceStage
          { s with throttleTimers := mapSet s.throttleTimers event now }
          now event data := by
      simp [EventEmitter.emit, hdrop, hrec]
    refine ⟨?_, hemit⟩
    rw [hemit]
    exact (debounceStage_state _ now event data).2.2.2.2.2.1

theorem debounceStage_debounce {α : Type} (s : EventEmitter α) (now : Int)
    (event : EventName) (data : α) (D : Int)
    (hD : mapLookup s.debounceDelays event = some D) (hDnz : D ≠ 0) :
    s.debounceStage now event data =
      ⟨true, { s with debounceTimers := mapSet s.debounceTimers event (now + D, data) },
        [], 0⟩ := by
  simp [EventEmitter.debounceStage, hD, hDnz]

theorem emit_debounce_aux {α : Type} (s : EventEmitter α) (now : Int)
    (event : EventName) (data : α) (D : Int)
    (hD : mapLookup s.debounceDelays event = some D) (hDnz : D ≠ 0)
    (hT : s.throttleDrops now event = false) :
    (s.emit now event data).ret = true ∧
    (s.emit now event data).invs = [] ∧
    (s.emit now event data).stepsRun = 0 ∧
    mapLookup (s.emit now event data).state.debounceTimers event =
      some (now + D, data) := by
  have hem : s.emit now event data =
      (s.throttleRecord now event).debounceStage now event data := by
    simp [EventEmitter.emit, hT]
  have hDD : mapLookup (s.throttleRecord now event).debounceDelays event = some D := by
    rw [(throttleRecord_state s now event).2.2.2.2.2.1]; exact hD
  rw [hem, debounceStage_debounce (s.throttleRecord now event) now event data D hDD hDnz]
  exact ⟨rfl, rfl, rfl, mapLookup_set_self _ _ _⟩

/-- C5: with a positive debounce delay D configured for the event and the
throttle gate not dropping the call, `emit` returns true immediately with no
listener invocation and no chain step run, and replaces any pending deferred
emission for that name with one carrying the current payload and firing at
`now + D`; a second such emission in a burst again returns true and leaves
the pending record carrying only the most recent payload, due at its own
time plus D; and when the pending timer fires, the record is cleared first
and the captured payload goes through the normal `_emitInternal`
chain-then-fan-out path on the cleared state. -/
theorem emit_debounce_defers {α : Type} (s : EventEmitter α) (now : Int)
    (event : EventName) (data : α) (D : Int)
    (hD : mapLookup s.debounceDelays event = some D) (hDpos : 0 < D)
    (hT : s.throttleDrops now event = false) :
    ((s.emit now event data).ret = true ∧
     (s.emit now event data).invs = [] ∧
     (s.emit now event data).stepsRun = 0 ∧
     mapLookup (s.emit now event data).state.debounceTimers event =
       some (now + D, data)) ∧
    (∀ (t1 : Int) (p2 : α),
      (s.emit now event data).state.throttleDrops t1 event = false →
      ((s.emit now event data).state.emit t1 event p2).ret = true ∧
      ((s.emit now event data).state.emit t1 event p2).invs = [] ∧
      mapLookup ((s.emit now event data).state.emit t1 event p2).state.debounceTimers
        event = some (t1 + D, p2)) ∧
    (∀ (s' : EventEmitter α) (ft : Int) (p : α),
      mapLookup s'.debounceTimers event = some (ft, p) →
      (s'.fireDebounce event).state =
        { s' with debounceTimers := mapDel s'.debounceTimers event } ∧
      mapLookup (s'.fireDebounce event).state.debounceTimers event = none ∧
      (s'.fireDebounce event).ret =
        (EventEmitter.emitInternal
          { s' with debounceTimers := mapDel s'.debounceTimers event } event p).called ∧
      (s'.fireDebounce event).invs =
        (EventEmitter.emitInternal
          { s' with debounceTimers := mapDel s'.debounceTimers event } event p).invs) := by
  have hDnz : D ≠ 0 := by omega
  refine ⟨emit_debounce_aux s now event data D hD hDnz hT, ?_, ?_⟩
  · intro t1 p2 hT2
    have hD2 : mapLookup (s.emit now event data).state.debounceDelays event = some D := by
      rw [(emit_preserves_config s now event data).2.2.2.1]; exact hD
    have h2 := emit_debounce_aux ((s.emit now event data).state) t1 event p2 D hD2 hDnz hT2
    exact ⟨h2.1, h2.2.1, h2.2.2.2⟩
  · intro s' ft p hpend
    have : s'.fireDebounce event =
        ⟨(EventEmitter.emitInternal
            { s' with debounceTimers := mapDel s'.debounceTimers event } event p).called,
          { s' with debounceTimers := mapDel s'.debounceTimers event },
          (EventEmitter.emitInternal
            { s' with debounceTimers := mapDel s'.debounceTimers event } event p).invs,
          (EventEmitter.emitInternal
            { s' with debounceTimers := mapDel s'.debounceTimers event } event p).stepsRun⟩ := by
      simp [EventEmitter.fireDebounce, hpend]
    rw [this]
    exact ⟨rfl, mapLookup_del_self _ _, rfl, rfl⟩

/-- Empty emitter fixture used by concrete witnesses. -/
def emptyEmitter (α : Type) : EventEmitter α :=
  { maxListeners := 10, listeners := [], wildcardListeners := [],
    operationChains := [], debounceTimers := [], debounceDelays := [],
    throttleTimers := [], throttleDelays := [], idCounter := 0 }

/-- Witness fixture for the throttle claim: delay 10 on "e", last fire at
time 100. -/
def throttleFixture : EventEmitter Int :=
  { emptyEmitter Int with
    throttleTimers := [("e", 100)], throttleDelays := [("e", 10)] }

theorem emit_throttle_gate_w :
    mapLookup throttleFixture.throttleDelays "e" = some 10 ∧
    (0 : Int) < 10 ∧
    mapLookup throttleFixture.throttleTimers "e" = some 100 ∧
    (100 : Int) ≠ 0 ∧
    (105 - 100 : Int) < 10 ∧
    throttleFixture.emit 105 "e" 0 = ⟨false, throttleFixture, [], 0⟩ :=
  ⟨by decide, by decide, by decide, by decide, by decide,
    (emit_throttle_gate throttleFixture 105 "e" 0 10 100 (by decide) (by decide)
      (by decide) (by decide)).1 (by decide)⟩

/-- Witness fixture for the debounce claim: delay 10 on "e". -/
def debounceFixture : EventEmitter Int :=
  { emptyEmitter Int with debounceDelays := [("e", 10)] }

theorem emit_debounce_defers_w :
    mapLookup debounceFixture.debounceDelays "e" = some 10 ∧
    (0 : Int) < 10 ∧
    debounceFixture.throttleDrops 0 "e" = false ∧
    (debounceFixture.emit 0 "e" 5).ret = true ∧
    mapLookup (debounceFixture.emit 0 "e" 5).state.debounceTimers "e" =
      some (0 + 10, 5) :=
  ⟨by decide, by decide, by decide,
    (emit_debounce_defers debounceFixture 0 "e" 5 10 (by decide) (by decide)
      (by decide)).1.1,
    (emit_debounce_defers debounceFixture 0 "e" 5 10 (by decide) (by decide)
      (by decide)).1.2.2.2⟩

/-- C7: `emitToListener` ignores the debounce and throttle configuration
entirely (its result is invariant under arbitrary replacement of all four
timing maps, and it always executes immediately — there is no deferred
path), performs at most one invocation, which targets exactly the per-name
listener whose id matches, returns false when no listener with that id
exists for the event, false when the single chain evaluation is SUPPRESSED,
false when the invoked handler throws, and true when the handler is invoked
and returns normally. -/
theorem emitToListener_spec {α : Type} (s : EventEmitter α) (event : EventName)
    (data : α) (lid : String) :
    (∀ (dt : List (EventName × (Int × α))) (dd tt td : List (EventName × Int)),
      EventEmitter.emitToListener
        { s with debounceTimers := dt, debounceDelays := dd,
                 throttleTimers := tt, throttleDelays := td } event data lid =
        s.emitToListener event data lid) ∧
    ((s.emitToListener event data lid).invs.length ≤ 1 ∧
      ∀ i ∈ (s.emitToListener event data lid).invs,
        ∃ v, i = Invocation.perName lid v) ∧
    ((mapLookup s.listeners event = none →
        s.emitToListener event data lid = ⟨false, [], 0⟩) ∧
      (∀ l, mapLookup s.listeners event = some l →
        l.find? (fun w => w.id = lid) = none →
        s.emitToListener event data lid = ⟨false, [], 0⟩)) ∧
    (∀ l w, mapLookup s.listeners event = some l →
      l.find? (fun w' => w'.id = lid) = some w →
      ((s.chainExec event data).1 = none →
        (s.emitToListener event data lid).called = false ∧
        (s.emitToListener event data lid).invs = []) ∧
      (∀ v, (s.chainExec event data).1 = some v →
        (s.emitToListener event data lid).called = !w.raises v ∧
        (s.emitToListener event data lid).invs = [Invocation.perName w.id v])) := by
  refine ⟨fun dt dd tt td => rfl, ⟨?_, ?_⟩, ⟨?_, ?_⟩, ?_⟩
  · rcases hl : mapLookup s.listeners event with _ | l
    · simp [EventEmitter.emitToListener, hl]
    · rcases hf : l.find? (fun w => w.id = lid) with _ | w
      · simp [EventEmitter.emitToListener, hl, hf]
      · rcases hc : (s.chainExec event data).1 with _ | v
        · simp [EventEmitter.emitToListener, hl, hf, hc]
        · simp [EventEmitter.emitToListener, hl, hf, hc]
  · intro i hi
    rcases hl : mapLookup s.listeners event with _ | l
    · simp [EventEmitter.emitToListener, hl] at hi
    · rcases hf : l.find? (fun w => w.id = lid) with _ | w
      · simp [EventEmitter.emitToListener, hl, hf] at hi
      · rcases hc : (s.chainExec event data).1 with _ | v
        · simp [EventEmitter.emitToListener, hl, hf, hc] at hi
        · simp [EventEmitter.emitToListener, hl, hf, hc] at hi
          have h1 := List.find?_some hf
          have hwid : w.id = lid := by simpa using h1
          exact ⟨v, by rw [hi, hwid]⟩
  · intro h
    simp [EventEmitter.emitToListener, h]
  · intro l hl hf
    simp [EventEmitter.emitToListener, hl, hf]
  · intro l w hl hf
    constructor
    · intro hc
      simp [EventEmitter.emitToListener, hl, hf, hc]
    · intro v hc
      simp [EventEmitter.emitToListener, hl, hf, hc]

/-- Witness fixture: one listener with id "0" on event "e", its callback
never throwing; debounce and throttle both configured, to exercise the
gate-bypass conjunct. -/
def targetFixture : EventEmitter Int :=
  { emptyEmitter Int with
    listeners := [("e", [⟨"0", 0, fun _ => false⟩])],
    debounceDelays := [("e", 10)], throttleDelays := [("e", 10)],
    throttleTimers := [("e", 100)] }

theorem emitToListener_spec_w :
    mapLookup targetFixture.listeners "e" =
      some [⟨"0", 0, fun _ => false⟩] ∧
    (targetFixture.chainExec "e" 5).1 = some 5 ∧
    (targetFixture.emitToListener "e" 5 "0").called = true ∧
    (targetFixture.emitToListener "e" 5 "0").invs = [Invocation.perName "0" 5] :=
  ⟨rfl, rfl,
    ((emitToListener_spec targetFixture "e" 5 "0").2.2.2
        [⟨"0", 0, fun _ => false⟩] ⟨"0", 0, fun _ => false⟩ rfl rfl).2 5 rfl |>.1,
    ((emitToListener_spec targetFixture "e" 5 "0").2.2.2
        [⟨"0", 0, fun _ => false⟩] ⟨"0", 0, fun _ => false⟩ rfl rfl).2 5 rfl |>.2⟩

theorem length_filter_eq_iff {γ : Type} (l : List γ) (p : γ → Bool) :
    (l.filter p).length = l.length ↔ ∀ x ∈ l, p x = true := by
  induction l with
  | nil => simp
  | cons a l ih =>
    cases hp : p a with
    | true => simpa [List.filter_cons, hp] using ih
    | false =>
      have hle := List.length_filter_le p l
      simp [List.filter_cons, hp]
      omega

theorem handler_none_iff {β : Type} (l : List (ListenerWithId β)) (h : Nat) :
    (((l.filter (fun w => w.handler ≠ h)).length = l.length) ↔
      ∀ x ∈ l, x.handler ≠ h) ∧
    ((l.any (fun w => w.handler = h) = false) ↔ ∀ x ∈ l, x.handler ≠ h) := by
  constructor
  · have := length_filter_eq_iff l (fun w => decide (w.handler ≠ h))
    constructor
    · intro hc x hx
      simpa using this.mp hc x hx
    · intro hall
      exact this.mpr (by intro x hx; simpa using hall x hx)
  · rw [List.any_eq_false]
    constructor
    · intro hc x hx
      simpa using hc x hx
    · intro hall x hx
      simpa using hall x hx


/-- C10: removing by callback reference with `off`: one call removes every
registration holding that callback from the set of the event (respectively from
the wildcard list), leaving listeners with any other callback untouched and
in order; the returned boolean is true exactly when some registration held
that callback; and an immediately repeated `off` with the same arguments
returns false. -/
theorem off_by_handler_spec {α : Type} (s : EventEmitter α) (h : Nat) :
    (∀ (event : EventName) (l : List (ListenerWithId α)), event ≠ "*" →
      mapLookup s.listeners event = some l →
      mapLookup ((s.off event (IdOrHandler.byHandler h)).2).listeners event =
        some (l.filter (fun w => w.handler ≠ h)) ∧
      (s.off event (IdOrHandler.byHandler h)).1 =
        l.any (fun w => w.handler = h) ∧
      ((s.off event (IdOrHandler.byHandler h)).2.off event
          (IdOrHandler.byHandler h)).1 = false) ∧
    ((s.off "*" (IdOrHandler.byHandler h)).2.wildcardListeners =
        s.wildcardListeners.filter (fun w => w.handler ≠ h) ∧
      (s.off "*" (IdOrHandler.byHandler h)).1 =
        s.wildcardListeners.any (fun w => w.handler = h) ∧
      ((s.off "*" (IdOrHandler.byHandler h)).2.off "*"
          (IdOrHandler.byHandler h)).1 = false) := by
  constructor
  · intro event l hev hl
    by_cases hP : ∀ a ∈ l, ¬ a.handler = h
    · have hfeq : l.filter (fun w => w.handler ≠ h) = l :=
        List.filter_eq_self.mpr (fun a ha => decide_eq_true (hP a ha))
      have hoff : s.off event (IdOrHandler.byHandler h) = (false, s) := by
        simp [EventEmitter.off, hev, hl]
        exact hP
      have hany : l.any (fun w => w.handler = h) = false :=
        (handler_none_iff l h).2.mpr hP
      refine ⟨?_, ?_, ?_⟩
      · rw [hoff]
        show mapLookup s.listeners event = some (l.filter (fun w => w.handler ≠ h))
        rw [hfeq]
        exact hl
      · rw [hoff, hany]
      · rw [hoff]
        show (s.off event (IdOrHandler.byHandler h)).1 = false
        rw [hoff]
    · have hoff1 : (s.off event (IdOrHandler.byHandler h)).1 = true := by
        simp [EventEmitter.off, hev, hl, hP]
      have hoff2 : (s.off event (IdOrHandler.byHandler h)).2.listeners =
          mapSet s.listeners event (l.filter (fun w => w.handler ≠ h)) := by
        simp [EventEmitter.off, hev, hl, hP]
      have hany : l.any (fun w => w.handler = h) = true := by
        by_contra hc
        have hf : l.any (fun w => w.handler = h) = false := by
          simpa using hc
        exact hP ((handler_none_iff l h).2.mp hf)
      have hlook2 : mapLookup
          (mapSet s.listeners event (l.filter (fun w => w.handler ≠ h))) event =
          some (l.filter (fun w => w.handler ≠ h)) := mapLookup_set_self _ _ _
      refine ⟨?_, ?_, ?_⟩
      · rw [hoff2]
        exact hlook2
      · rw [hoff1, hany]
      · have hPfil : ∀ a ∈ l.filter (fun w => w.handler ≠ h), ¬ a.handler = h := by
          intro a ha
          simpa using (List.mem_filter.mp ha).2
        rcases hso : s.off event (IdOrHandler.byHandler h) with ⟨b, s2⟩
        have hs2 : s2.listeners =
            mapSet s.listeners event (l.filter (fun w => w.handler ≠ h)) := by
          rw [← hoff2, hso]
        show (s2.off event (IdOrHandler.byHandler h)).1 = false
        unfold EventEmitter.off
        rw [if_neg hev, hs2, hlook2]
        simp [hPfil]
  · have hoffw2 : (s.off "*" (IdOrHandler.byHandler h)).2.wildcardListeners =
        s.wildcardListeners.filter (fun w => w.handler ≠ h) := by
      simp [EventEmitter.off]
    refine ⟨hoffw2, ?_, ?_⟩
    · by_cases hP : ∀ a ∈ s.wildcardListeners, ¬ a.handler = h
      · have hfeq : s.wildcardListeners.filter (fun w => w.handler ≠ h) =
            s.wildcardListeners :=
          List.filter_eq_self.mpr (fun a ha => decide_eq_true (hP a ha))
        have hany := (handler_none_iff s.wildcardListeners h).2.mpr hP
        simp [EventEmitter.off, hfeq, hany]
        exact hP
      · have hany : s.wildcardListeners.any (fun w => w.handler = h) = true := by
          by_contra hc
          have hf : s.wildcardListeners.any (fun w => w.handler = h) = false := by
            simpa using hc
          exact hP ((handler_none_iff s.wildcardListeners h).2.mp hf)
        have hlen : ¬ ((s.wildcardListeners.filter
            (fun w => w.handler ≠ h)).length = s.wildcardListeners.length) :=
          fun hc => hP (fun a ha hah =>
            (handler_none_iff s.wildcardListeners h).1.mp hc a ha hah)
        simp [EventEmitter.off, hlen, hany]
        simpa using List.any_eq_true.mp hany
    · rcases hso : s.off "*" (IdOrHandler.byHandler h) with ⟨b, s2⟩
      have hs2 : s2.wildcardListeners =
          s.wildcardListeners.filter (fun w => w.handler ≠ h) := by
        rw [← hoffw2, hso]
      show (s2.off "*" (IdOrHandler.byHandler h)).1 = false
      have hfeq2 : s2.wildcardListeners.filter (fun w => w.handler ≠ h) =
          s2.wildcardListeners := by
        rw [hs2]
        exact List.filter_eq_self.mpr (fun a ha => (List.mem_filter.mp ha).2)
      simp [EventEmitter.off, hfeq2]
      intro x hx
      rw [hs2] at hx
      simpa using (List.mem_filter.mp hx).2

/-- Witness fixture: the callback with reference identity 7 registered twice
on "e" (ids "0" and "2") next to a different callback (identity 8, id "1"),
and once on the wildcard next to a different callback. -/
def dupFixture : EventEmitter Int :=
  { emptyEmitter Int with
    listeners := [("e", [⟨"0", 7, fun _ => false⟩, ⟨"1", 8, fun _ => false⟩,
      ⟨"2", 7, fun _ => false⟩])],
    wildcardListeners := [⟨"3", 7, fun _ => false⟩, ⟨"4", 8, fun _ => false⟩] }

theorem off_by_handler_spec_w :
    ("e" : EventName) ≠ "*" ∧
    (dupFixture.off "e" (IdOrHandler.byHandler 7)).1 = true ∧
    ((dupFixture.off "e" (IdOrHandler.byHandler 7)).2.off "e"
        (IdOrHandler.byHandler 7)).1 = false := by
  have hmain := (off_by_handler_spec dupFixture 7).1 "e"
    [⟨"0", 7, fun _ => false⟩, ⟨"1", 8, fun _ => false⟩, ⟨"2", 7, fun _ => false⟩]
    (by decide) rfl
  exact ⟨by decide, by rw [hmain.2.1]; rfl, hmain.2.2⟩

/-- Fixture: one per-name listener on "e", one wildcard listener, and a
chain whose filter rejects every payload, so the per-name chain pass is
SUPPRESSED. -/
def suppressFixture : EventEmitter Int :=
  { emptyEmitter Int with
    listeners := [("e", [⟨"0", 0, fun _ => false⟩])],
    wildcardListeners := [⟨"1", 1, fun _ => false⟩],
    operationChains := [("e", [OperationStep.filter (fun _ => some false)])] }

/-- C1 counterexample: with one per-name listener and one wildcard listener
on "e" and a chain suppressing the payload, `_emitInternal` returns false
and performs NO invocation at all — the wildcard listener is never invoked
and emit cannot return true, contrary to the claim that the chain is re-run
for the wildcard pass and the wildcard listener still receives the
envelope.  The early `return false` on src/model.ts line 204 skips the
wildcard loop. -/
theorem emitInternal_suppressed_cex :
    suppressFixture.wildcardListeners.length = 1 ∧
    (suppressFixture.chainExec "e" 0).1 = none ∧
    (suppressFixture.emitInternal "e" 0).called = false ∧
    (suppressFixture.emitInternal "e" 0).invs = [] ∧
    (suppressFixture.emit 0 "e" (0 : Int)).ret = false ∧
    (suppressFixture.emit 0 "e" 0).invs = [] :=
  ⟨rfl, rfl, rfl, rfl, rfl, rfl⟩

/-- C1 (amended): when at least one per-name listener exists for the event
and the chain evaluation for the per-name pass is SUPPRESSED,
`_emitInternal` returns false immediately: per-name delivery is skipped and
the wildcard pass is skipped entirely — no listener of any kind is invoked
and the only step handlers that ran are those of the single per-name chain
evaluation. -/
theorem emitInternal_suppressed_skips_wildcard {α : Type} (s : EventEmitter α)
    (event : EventName) (data : α) (l : List (ListenerWithId α))
    (hl : mapLookup s.listeners event = some l) (hne : l ≠ [])
    (hc : (s.chainExec event data).1 = none) :
    s.emitInternal event data = ⟨false, [], (s.chainExec event data).2⟩ := by
  unfold EventEmitter.emitInternal
  rw [hl]
  cases l with
  | nil => exact absurd rfl hne
  | cons w rest => simp [hc]

theorem emitInternal_suppressed_skips_wildcard_w :
    mapLookup suppressFixture.listeners "e" = some [⟨"0", 0, fun _ => false⟩] ∧
    (suppressFixture.chainExec "e" (0 : Int)).1 = none ∧
    suppressFixture.emitInternal "e" 0 = ⟨false, [], 1⟩ :=
  ⟨rfl, rfl,
    emitInternal_suppressed_skips_wildcard suppressFixture "e" 0
      [⟨"0", 0, fun _ => false⟩] rfl (List.cons_ne_nil _ _) rfl⟩

/-- C2 counterexample: constructing an emitter with `maxListeners: 0` does
not disable the advisory cap — `config.maxListeners || 10` replaces the
falsy 0 with the default, so `getMaxListeners()` reports 10, not 0. -/
theorem mk_zero_cap_cex :
    Except.map EventEmitter.getMaxListeners (mkEventEmitter Int (some 0)) =
      Except.ok 10 ∧ (10 : Int) ≠ 0 :=
  ⟨rfl, by decide⟩

/-- C2 (amended): constructing with `maxListeners: 0` leaves the advisory
cap at the default 10 (the option value 0 is falsy and is replaced by 10);
a negative `maxListeners` at construction fails with a configuration error;
with the option omitted the cap defaults to 10; a cap of 0 — reachable via
`setMaxListeners(0)`, not via the constructor — does disable the advisory
warning: `subscribe` then never warns, for a per-name or wildcard
registration, regardless of how many listeners are registered. -/
theorem ctor_maxListeners_semantics :
    (Except.map EventEmitter.getMaxListeners (mkEventEmitter Int (some 0)) =
      Except.ok 10) ∧
    (∀ m : Int, m < 0 → mkEventEmitter Int (some m) = Except.error ()) ∧
    (Except.map EventEmitter.getMaxListeners (mkEventEmitter Int none) =
      Except.ok 10) ∧
    (∀ s : EventEmitter Int,
      Except.map EventEmitter.getMaxListeners (s.setMaxListeners 0) =
        Except.ok 0) ∧
    (∀ (s : EventEmitter Int) (event : EventName) (hnd : Nat) (r : Int → Bool),
      s.maxListeners = 0 → (s.onName event hnd r).2.1 = false) ∧
    (∀ (s : EventEmitter Int) (hnd : Nat) (r : EventName × Int → Bool),
      s.maxListeners = 0 → (s.onWildcard hnd r).2.1 = false) := by
  refine ⟨rfl, ?_, rfl, ?_, ?_, ?_⟩
  · intro m hm
    have h1 : (m != 0) = true := by simp; omega
    have h2 : decide (m < 0) = true := decide_eq_true hm
    simp [mkEventEmitter, h1, h2]
  · intro s
    simp [EventEmitter.setMaxListeners, EventEmitter.getMaxListeners, Except.map]
  · intro s event hnd r h0
    simp [EventEmitter.onName, h0]
  · intro s hnd r h0
    simp [EventEmitter.onWildcard, h0]

theorem ctor_maxListeners_semantics_w :
    ((-1 : Int) < 0) ∧
    mkEventEmitter Int (some (-1)) = Except.error () ∧
    ({ emptyEmitter Int with maxListeners := 0 }.onName "e" 0
      (fun _ => false)).2.1 = false :=
  ⟨by decide, ctor_maxListeners_semantics.2.1 (-1) (by decide),
    ctor_maxListeners_semantics.2.2.2.2.1 _ "e" 0 (fun _ => false) rfl⟩

/-- C3 counterexample: with a debounce delay configured for "e" but zero
per-name listeners and zero wildcard listeners, `emit` on "e" returns true
(the deferred path returns success immediately), not false as the claim
states for every call. -/
theorem emit_no_listeners_cex :
    debounceFixture.listeners = [] ∧
    debounceFixture.wildcardListeners = [] ∧
    (debounceFixture.emit 0 "e" (0 : Int)).ret = true :=
  ⟨rfl, rfl, rfl⟩

/-- C3 (amended): for an event name with zero per-name listeners (no entry
or an empty entry) and zero wildcard listeners, provided no truthy debounce
delay is configured for that name, `emit` returns false, performs no
listener invocation and runs no chain step (including taps). -/
theorem emit_no_listeners_false {α : Type} (s : EventEmitter α) (now : Int)
    (event : EventName) (data : α)
    (hl : mapLookup s.listeners event = none ∨ mapLookup s.listeners event = some [])
    (hw : s.wildcardListeners = [])
    (hd : mapLookup s.debounceDelays event = none ∨
      mapLookup s.debounceDelays event = some 0) :
    (s.emit now event data).ret = false ∧
    (s.emit now event data).invs = [] ∧
    (s.emit now event data).stepsRun = 0 := by
  have hint : ∀ (s' : EventEmitter α),
      (mapLookup s'.listeners event = none ∨ mapLookup s'.listeners event = some []) →
      s'.wildcardListeners = [] →
      s'.emitInternal event data = ⟨false, [], 0⟩ := by
    intro s' hl' hw'
    unfold EventEmitter.emitInternal
    rcases hl' with hcase | hcase
    · rw [hcase]
      simp [hw']
    · rw [hcase]
      simp [hw', wildcardLoop]
  by_cases hdrop : s.throttleDrops now event
  · simp [EventEmitter.emit, hdrop]
  · have hts := throttleRecord_state s now event
    have hemit : s.emit now event data =
        (s.throttleRecord now event).debounceStage now event data := by
      simp [EventEmitter.emit, hdrop]
    have hl1 : mapLookup (s.throttleRecord now event).listeners event = none ∨
        mapLookup (s.throttleRecord now event).listeners event = some [] := by
      rw [hts.2.1]; exact hl
    have hw1 : (s.throttleRecord now event).wildcardListeners = [] := by
      rw [hts.2.2.1]; exact hw
    have hi := hint (s.throttleRecord now event) hl1 hw1
    have hd1 : mapLookup (s.throttleRecord now event).debounceDelays event = none ∨
        mapLookup (s.throttleRecord now event).debounceDelays event = some 0 := by
      rw [hts.2.2.2.2.2.1]; exact hd
    rcases hd1 with hcase | hcase
    · rw [hemit]
      simp [EventEmitter.debounceStage, hcase, hi]
    · rw [hemit]
      simp [EventEmitter.debounceStage, hcase, hi]

theorem emit_no_listeners_false_w :
    mapLookup (emptyEmitter Int).listeners "e" = none ∧
    (emptyEmitter Int).wildcardListeners = [] ∧
    mapLookup (emptyEmitter Int).debounceDelays "e" = none ∧
    ((emptyEmitter Int).emit 0 "e" 0).ret = false ∧
    ((emptyEmitter Int).emit 0 "e" 0).stepsRun = 0 :=
  ⟨rfl, rfl, rfl,
    (emit_no_listeners_false (emptyEmitter Int) 0 "e" 0 (Or.inl rfl) rfl
      (Or.inl rfl)).1,
    (emit_no_listeners_false (emptyEmitter Int) 0 "e" 0 (Or.inl rfl) rfl
      (Or.inl rfl)).2.2⟩

/-- Fixture: listeners registered on "x" and "y", a chain, a debounce delay
and timer, and a throttle record on "x". -/
def removeAllFixture : EventEmitter Int :=
  { emptyEmitter Int with
    listeners := [("x", [⟨"0", 0, fun _ => false⟩]),
      ("y", [⟨"1", 1, fun _ => false⟩])],
    operationChains := [("x", [OperationStep.tap (fun _ => some ())])],
    debounceDelays := [("x", 5)], debounceTimers := [("x", (7, 3))],
    throttleTimers := [("x", 50)], throttleDelays := [("x", 4)] }

/-- C8 counterexample: `removeAllListeners` with the empty-string event name
does not scope its effect to that name: the source guard is `if (event)`,
the empty string is falsy, and the clear-everything branch runs — the
listener set of the unrelated name "x" is wiped. -/
theorem removeAllListeners_empty_name_cex :
    (mapLookup removeAllFixture.listeners "x").isSome = true ∧
    (mapLookup ((removeAllFixture.removeAllListeners (some "")).listeners)
      "x").isSome = false :=
  ⟨rfl, rfl⟩

/-- C8 (amended): for every NON-EMPTY event name e,
`removeAllListeners(e)` removes the listener set of e, cancels and discards its
pending debounce timer and its throttle last-fire record, and leaves the
bound operation chains, the configured debounce and throttle delays, the
wildcard listeners, and the listener and timer state of every other event name
unchanged. -/
theorem removeAllListeners_name_spec {α : Type} (s : EventEmitter α)
    (e : EventName) (he : e ≠ "") :
    mapLookup (s.removeAllListeners (some e)).listeners e = none ∧
    mapLookup (s.removeAllListeners (some e)).debounceTimers e = none ∧
    mapLookup (s.removeAllListeners (some e)).throttleTimers e = none ∧
    (s.removeAllListeners (some e)).operationChains = s.operationChains ∧
    (s.removeAllListeners (some e)).debounceDelays = s.debounceDelays ∧
    (s.removeAllListeners (some e)).throttleDelays = s.throttleDelays ∧
    (s.removeAllListeners (some e)).wildcardListeners = s.wildcardListeners ∧
    (∀ q : EventName, q ≠ e →
      mapLookup (s.removeAllListeners (some e)).listeners q =
        mapLookup s.listeners q ∧
      mapLookup (s.removeAllListeners (some e)).debounceTimers q =
        mapLookup s.debounceTimers q ∧
      mapLookup (s.removeAllListeners (some e)).throttleTimers q =
        mapLookup s.throttleTimers q) := by
  have htr : (e != "") = true := by simpa using he
  have h1 : (s.removeAllListeners (some e)).listeners = mapDel s.listeners e := by
    simp [EventEmitter.removeAllListeners, htr]
  have h2 : (s.removeAllListeners (some e)).debounceTimers =
      mapDel s.debounceTimers e := by
    simp [EventEmitter.removeAllListeners, htr]
  have h3 : (s.removeAllListeners (some e)).throttleTimers =
      mapDel s.throttleTimers e := by
    simp [EventEmitter.removeAllListeners, htr]
  refine ⟨?_, ?_, ?_, ?_, ?_, ?_, ?_, ?_⟩
  · rw [h1]; exact mapLookup_del_self _ _
  · rw [h2]; exact mapLookup_del_self _ _
  · rw [h3]; exact mapLookup_del_self _ _
  · simp [EventEmitter.removeAllListeners, htr]
  · simp [EventEmitter.removeAllListeners, htr]
  · simp [EventEmitter.removeAllListeners, htr]
  · simp [EventEmitter.removeAllListeners, htr]
  · intro q hq
    exact ⟨by rw [h1]; exact mapLookup_del_other _ _ _ hq,
      by rw [h2]; exact mapLookup_del_other _ _ _ hq,
      by rw [h3]; exact mapLookup_del_other _ _ _ hq⟩

theorem removeAllListeners_name_spec_w :
    ("x" : EventName) ≠ "" ∧
    mapLookup ((removeAllFixture.removeAllListeners (some "x")).listeners)
      "x" = none ∧
    mapLookup ((removeAllFixture.removeAllListeners (some "x")).listeners)
      "y" = mapLookup removeAllFixture.listeners "y" ∧
    (removeAllFixture.removeAllListeners (some "x")).debounceDelays =
      removeAllFixture.debounceDelays :=
  ⟨by decide,
    (removeAllListeners_name_spec removeAllFixture "x" (by decide)).1,
    ((removeAllListeners_name_spec removeAllFixture "x" (by decide)).2.2.2.2.2.2.2
      "y" (by decide)).1,
    (removeAllListeners_name_spec removeAllFixture "x" (by decide)).2.2.2.2.1⟩
